import Mathlib

/-!
Verification of the osangsystem code-relay service (src/index.js).

The program keeps three process-wide in-memory maps:
  userPhones          : userId → last phone text           (lines 16)
  submissions         : submissionId → submission record   (line 17)
  scheduledDeletions  : timer key → timer handle           (line 18)
and drives two kinds of timers through the single scheduledDeletions map:
one-shot message-deletion timeouts (key "chatId:messageId") and repeating
typing-presence intervals (key "typing_<userId>").

We embed the state and the event handlers shallowly.  Timer handles are
modelled as fresh natural numbers; alongside the registry map we keep the
allocation history, the set of cancelled handles, and the set of fired
one-shot handles so that liveness of timers is expressible.
-/

namespace Osang

/-- State of the scheduledDeletions map together with timer bookkeeping.
`registry` is the map itself (key → timer handle); `alloc` records every
handle ever created, with the key it was installed under and whether it is
a repeating interval (`true`) or a one-shot timeout (`false`); `cancelled`
holds handles passed to clearTimeout/clearInterval; `fired` holds one-shot
handles whose callback has run; `nextId` is the fresh-handle counter. -/
structure SchedState where
  registry : String → Option Nat
  alloc : List (Nat × String × Bool)
  cancelled : List Nat
  fired : List Nat
  nextId : Nat

def SchedState.empty : SchedState :=
  { registry := fun _ => none, alloc := [], cancelled := [], fired := [], nextId := 0 }

/-- Point update of a registry map. -/
def setKey (r : String → Option Nat) (k : String) (v : Option Nat) : String → Option Nat :=
  fun k' => if k' = k then v else r k'

/-- The deletion key template literal of scheduleDelete (index.js line 24). -/
def delKey (chatId messageId : Nat) : String :=
  toString chatId ++ ":" ++ toString messageId

/-- The typing-loop key template literal (index.js lines 86 and 184). -/
def typingKey (userId : String) : String :=
  "typing_" ++ userId

/-- scheduleDelete (index.js lines 23-33): if the key is occupied,
clearTimeout the old handle, then setTimeout a fresh one-shot timer and
store its handle under the key.  The delay does not affect map state. -/
def scheduleDelete (s : SchedState) (chatId messageId : Nat) : SchedState :=
  let key := delKey chatId messageId
  let cancelled' := match s.registry key with
    | some t => t :: s.cancelled
    | none => s.cancelled
  { registry := setKey s.registry key (some s.nextId)
    alloc := (s.nextId, key, false) :: s.alloc
    cancelled := cancelled'
    fired := s.fired
    nextId := s.nextId + 1 }

/-- stopTypingLoop (index.js lines 85-91): if the typing key is occupied,
clearInterval the handle and delete the key; otherwise do nothing. -/
def stopTypingLoop (s : SchedState) (userId : String) : SchedState :=
  let key := typingKey userId
  match s.registry key with
  | some t =>
      { s with registry := setKey s.registry key none, cancelled := t :: s.cancelled }
  | none => s

/-- The typing-loop install inside POST /api/log-code (index.js lines
177-184): stopTypingLoop first, then setInterval and store the handle. -/
def installTypingLoop (s : SchedState) (userId : String) : SchedState :=
  let s1 := stopTypingLoop s userId
  { s1 with
      registry := setKey s1.registry (typingKey userId) (some s1.nextId)
      alloc := (s1.nextId, typingKey userId, true) :: s1.alloc
      nextId := s1.nextId + 1 }

/-- Host-timer semantics of a one-shot timeout firing: a cleared or
already-fired timer never runs; otherwise the callback of scheduleDelete
(index.js lines 28-31) deletes its key from the map.  Interval handles
firing do not change the map. -/
def fireTimer (s : SchedState) (t : Nat) : SchedState :=
  if t ∈ s.cancelled ∨ t ∈ s.fired then s
  else
    match s.alloc.find? (fun e => e.1 = t) with
    | some (_, key, false) =>
        { s with registry := setKey s.registry key none, fired := t :: s.fired }
    | _ => s

/-- Operations on the timer registry occurring in the program. -/
inductive SchedOp where
  | sched (chatId messageId : Nat)
  | stopTyping (userId : String)
  | installTyping (userId : String)
  | fire (t : Nat)

def schedStep (s : SchedState) (op : SchedOp) : SchedState :=
  match op with
  | .sched c m => scheduleDelete s c m
  | .stopTyping u => stopTypingLoop s u
  | .installTyping u => installTypingLoop s u
  | .fire t => fireTimer s t

def runSched (ops : List SchedOp) : SchedState :=
  ops.foldl schedStep SchedState.empty

/-- Handles allocated under key `k` that are still live (neither cancelled
nor fired). -/
def liveFor (s : SchedState) (k : String) : List Nat :=
  (s.alloc.filter
    (fun e => decide (e.2.1 = k ∧ e.1 ∉ s.cancelled ∧ e.1 ∉ s.fired))).map
    (fun e => e.1)

/-- Well-formedness invariant of the timer bookkeeping: handles are below
the counter, allocation records have pairwise distinct handles, every live
allocated handle is the one currently registered under its key, and every
registered handle was allocated under that key. -/
def SchedInv (s : SchedState) : Prop :=
  (∀ e ∈ s.alloc, e.1 < s.nextId) ∧
  s.alloc.Pairwise (fun a b => a.1 ≠ b.1) ∧
  (∀ t ∈ s.cancelled, t < s.nextId) ∧
  (∀ t ∈ s.fired, t < s.nextId) ∧
  (∀ e ∈ s.alloc, e.1 ∉ s.cancelled → e.1 ∉ s.fired → s.registry e.2.1 = some e.1) ∧
  (∀ k t, s.registry k = some t → ∃ e ∈ s.alloc, e.1 = t ∧ e.2.1 = k)

/-- A submission record as stored by submissions.set (index.js 163-169). -/
structure Submission where
  userId : Option String
  code : String
  telegramPhone : String
  username : String
  firstName : String
deriving Repr, DecidableEq

/-- Process state: the three memory maps (index.js lines 16-18). -/
structure Sys where
  userPhones : String → Option String
  submissions : String → Option Submission
  sched : SchedState

def Sys.init : Sys :=
  { userPhones := fun _ => none, submissions := fun _ => none, sched := SchedState.empty }

/-- Observable transport effects emitted by a handler, in order. -/
inductive Eff where
  | send (chatId messageId : Nat) (text : String)
  | schedDel (chatId messageId : Nat) (delayMs : Nat)
  | answerCb (text : String) (showAlert : Bool)
  | adminNotify (text : String) (approveData rejectData : String)
deriving Repr, DecidableEq

/-- JS String.prototype.trim, modelled on the character list: drop
whitespace from both ends. -/
def jsTrim (s : String) : String :=
  ⟨((s.data.dropWhile Char.isWhitespace).reverse.dropWhile Char.isWhitespace).reverse⟩

/-- JS text.startsWith("+"), modelled on the character list. -/
def startsWithPlus (s : String) : Bool :=
  match s.data with
  | c :: _ => c == '+'
  | [] => false

/-- JS payload.startsWith("verify_"), modelled on the character list. -/
def startsWithVerify (s : String) : Bool :=
  "verify_".data.isPrefixOf s.data

/-- JS template-literal rendering of a nullable string: null prints "null". -/
def jsShow (u : Option String) : String :=
  match u with
  | some s => s
  | none => "null"

/-- replyAndAutoDelete (index.js lines 36-40): send a reply, then
scheduleDelete the resulting message with the default 30*60*1000 ms. -/
def replyAndAutoDelete (s : Sys) (chatId msgId : Nat) (text : String) : Sys × List Eff :=
  ({ s with sched := scheduleDelete s.sched chatId msgId },
   [Eff.send chatId msgId text, Eff.schedDel chatId msgId 1800000])

/-- bot.start handler (index.js lines 44-61).  The payload check
payload && payload.startsWith("verify_") is modelled on Option String;
payload.replace("verify_", "") removes the first occurrence, which under
the startsWith guard is the 7-character prefix. -/
def handleStart (s : Sys) (payload : Option String) (chatId msgId : Nat) : Sys × List Eff :=
  match payload with
  | some p =>
      if p ≠ "" ∧ startsWithVerify p = true then
        replyAndAutoDelete s chatId msgId
          ("Verification code: <b>" ++ p.drop 7 ++ "</b>\n\nPaki-type ang Telegram phone number mo.")
      else
        replyAndAutoDelete s chatId msgId "Welcome! Paki-send ang phone number or code."
  | none =>
      replyAndAutoDelete s chatId msgId "Welcome! Paki-send ang phone number or code."

/-- The phone test of the text handler (index.js lines 68-69), applied to
the already-trimmed text: text.startsWith("+") ||
text.replace(/\D/g, "").length >= 10.  Stripping non-digits and taking the
length counts the ASCII digit characters. -/
def isPhoneText (text : String) : Bool :=
  startsWithPlus text || decide ((text.data.filter Char.isDigit).length ≥ 10)

/-- bot.on("text") handler (index.js lines 64-82): trim, classify, store
the phone under the sender id when classified as phone, and reply with an
auto-deleting message either way. -/
def handleText (s : Sys) (fromId : Nat) (chatId msgId : Nat) (raw : String) : Sys × List Eff :=
  let text := jsTrim raw
  let userId := toString fromId
  if isPhoneText text then
    let s1 := { s with
      userPhones := fun k => if k = userId then some text else s.userPhones k }
    replyAndAutoDelete s1 chatId msgId
      "Phone saved! Kung may code ka mula sa website, i-send lang dito."
  else
    replyAndAutoDelete s chatId msgId "Code received."

/-- The approve confirmation text (index.js lines 109-113). -/
def approveText (data : Submission) : String :=
  "Approved submission:\nUser: " ++ data.firstName ++ " (@" ++ data.username ++
    ")\nPhone: " ++ data.telegramPhone ++ "\nCode: " ++ data.code

/-- The reject confirmation text (index.js lines 132-136). -/
def rejectText (data : Submission) : String :=
  "❌ Rejected submission of user ID: " ++ jsShow data.userId

/-- bot.action(/approve:(.+)/) handler (index.js lines 94-114), given the
already-extracted submissionId.  The record is looked up but never removed
from the submissions map. -/
def handleApprove (s : Sys) (submissionId : String) (chatId msgId : Nat) : Sys × List Eff :=
  match s.submissions submissionId with
  | none => (s, [Eff.answerCb "Not found or expired" true])
  | some data =>
      let s1 := { s with sched := stopTypingLoop s.sched (jsShow data.userId) }
      let r := replyAndAutoDelete s1 chatId msgId (approveText data)
      (r.1, Eff.answerCb "Approved" false :: r.2)

/-- bot.action(/reject:(.+)/) handler (index.js lines 117-137). -/
def handleReject (s : Sys) (submissionId : String) (chatId msgId : Nat) : Sys × List Eff :=
  match s.submissions submissionId with
  | none => (s, [Eff.answerCb "Not found or expired" true])
  | some data =>
      let s1 := { s with sched := stopTypingLoop s.sched (jsShow data.userId) }
      let r := replyAndAutoDelete s1 chatId msgId (rejectText data)
      (r.1, Eff.answerCb "Rejected" false :: r.2)

/-- Request-body tgUser object (optional fields as sent by the client). -/
structure TgUser where
  id : Option Nat
  username : Option String
  fName : Option String
deriving Repr, DecidableEq

/-- POST /api/log-code request body; code is absent or a string. -/
structure ReqBody where
  code : Option String
  tgUser : Option TgUser
deriving Repr, DecidableEq

/-- HTTP responses the handler produces (the catch-all 500 branch is
unreachable in this model since no modelled step throws). -/
inductive Resp where
  | ok
  | badRequest (error : String)
deriving Repr, DecidableEq

/-- tgUser?.id ? String(tgUser.id) : null  (index.js line 156).  A numeric
id of 0 is falsy in JS and also yields null. -/
def tgUserId (tg : Option TgUser) : Option String :=
  match tg with
  | some u =>
      match u.id with
      | some n => if n = 0 then none else some (toString n)
      | none => none
  | none => none

/-- tgUser?.username || ""  (index.js line 157). -/
def tgUsername (tg : Option TgUser) : String :=
  (match tg with | some u => u.username | none => none).getD ""

/-- tgUser?.first_name || ""  (index.js line 158). -/
def tgFirstName (tg : Option TgUser) : String :=
  (match tg with | some u => u.fName | none => none).getD ""

/-- The admin notification text (index.js lines 193-198). -/
def logText (firstName username userId telegramPhone code : String) : String :=
  "🔔 New verification request\n\n👤 User: " ++ firstName ++ " (@" ++ username ++
    ")\n🆔 ID: " ++ userId ++ "\n📱 Phone: " ++ telegramPhone ++
    "\n\n🔑 Code: " ++ code

/-- POST /api/log-code handler (index.js lines 148-216).  now stands for
Date.now() at the moment of the request.  The !code guard tests JS string
falsiness (absent or empty).  The phone lookup userPhones.get(userId) ||
"Unknown phone" also defaults on an empty stored string, and the
submission id is (userId || "unknown") + "_" + now. -/
def handleLogCode (s : Sys) (body : ReqBody) (now : Nat) : Sys × Resp × List Eff :=
  let codeFalsy := match body.code with
    | none => true
    | some c => c = ""
  if codeFalsy then
    (s, Resp.badRequest "Code required", [])
  else
    let code := (body.code).getD ""
    let userId := tgUserId body.tgUser
    let username := tgUsername body.tgUser
    let firstName := tgFirstName body.tgUser
    let telegramPhone := match userId with
      | some u =>
          match s.userPhones u with
          | some p => if p = "" then "Unknown phone" else p
          | none => "Unknown phone"
      | none => "Unknown phone"
    let submissionId :=
      (match userId with
        | some u => if u = "" then "unknown" else u
        | none => "unknown") ++ "_" ++ toString now
    let s1 := { s with
      submissions := fun k =>
        if k = submissionId then
          some { userId := userId, code := code, telegramPhone := telegramPhone,
                 username := username, firstName := firstName }
        else s.submissions k }
    let s2 := match userId with
      | some u => { s1 with sched := installTypingLoop s1.sched u }
      | none => s1
    (s2, Resp.ok,
      [Eff.adminNotify (logText firstName username (jsShow userId) telegramPhone code)
        ("approve:" ++ submissionId) ("reject:" ++ submissionId)])

/-- True when every send in the trace is immediately followed by a
scheduled deletion of that same message with the 1,800,000 ms delay. -/
def ephemeralOk : List Eff → Bool
  | [] => true
  | .send c m _ :: rest =>
      (match rest with
        | .schedDel c' m' d :: _ => c' == c && m' == m && d == 1800000
        | _ => false) && ephemeralOk rest
  | _ :: rest => ephemeralOk rest

def isSchedDelB : Eff → Bool
  | .schedDel _ _ _ => true
  | _ => false

def isAdminNotifyB : Eff → Bool
  | .adminNotify _ _ _ => true
  | _ => false

/-- The spec's phone heuristic, stated from the spec's words: trim the
text; phone iff the trimmed text starts with a plus sign or the count of
digit characters in it is at least 10. -/
def phoneHeuristicSpec (raw : String) : Bool :=
  startsWithPlus (jsTrim raw) || decide (((jsTrim raw).data.filter Char.isDigit).length ≥ 10)

/-- Concrete scenario state: the process state right after one POST
/api/log-code with code 445566 from Telegram user 42 at timestamp 100.
It holds the pending submission 42_100 and a live typing loop for 42. -/
def demoState : Sys :=
  (handleLogCode Sys.init ⟨some "445566", some ⟨some 42, some "ana", some "Ana"⟩⟩ 100).1

end Osang

namespace Osang

theorem setKey_same (r : String → Option Nat) (k : String) (v : Option Nat) :
    setKey r k v k = v := by
  simp [setKey]

theorem setKey_other (r : String → Option Nat) (k : String) (v : Option Nat) (k' : String)
    (h : k' ≠ k) : setKey r k v k' = r k' := by
  simp [setKey, h]

theorem stopTypingLoop_registry_self (s : SchedState) (u : String) :
    (stopTypingLoop s u).registry (typingKey u) = none := by
  cases h : s.registry (typingKey u) with
  | none => simp [stopTypingLoop, h]
  | some t => simp [stopTypingLoop, h, setKey]

theorem stopTypingLoop_cancelled_mono (s : SchedState) (u : String) (x : Nat)
    (hx : x ∈ s.cancelled) : x ∈ (stopTypingLoop s u).cancelled := by
  cases h : s.registry (typingKey u) with
  | none => simp [stopTypingLoop, h, hx]
  | some t => simp [stopTypingLoop, h, hx]

theorem scheduleDelete_cancelled_mono (s : SchedState) (c m : Nat) (x : Nat)
    (hx : x ∈ s.cancelled) : x ∈ (scheduleDelete s c m).cancelled := by
  cases h : s.registry (delKey c m) with
  | none => simp [scheduleDelete, h, hx]
  | some t => simp [scheduleDelete, h, hx]

end Osang

namespace Osang

theorem digitChar_isDigit (n : Nat) (h : n < 10) : (Nat.digitChar n).isDigit = true := by
  interval_cases n <;> decide

theorem toDigitsCore_ten (fuel : Nat) :
    ∀ (n : Nat) (ds : List Char), n < fuel →
      ∃ l, Nat.toDigitsCore 10 fuel n ds = l ++ ds ∧ l ≠ [] ∧
        ∀ ch ∈ l, ch.isDigit = true := by
  induction fuel with
  | zero => intro n ds h; omega
  | succ fuel ih =>
    intro n ds h
    rw [Nat.toDigitsCore]
    by_cases h0 : n / 10 = 0
    · exact ⟨[Nat.digitChar (n % 10)], by simp [h0],
        by simp, by simp [digitChar_isDigit (n % 10) (Nat.mod_lt n (by omega))]⟩
    · have hn : 0 < n := by
        rcases Nat.eq_zero_or_pos n with h1 | h1
        · exact absurd (by simp [h1]) h0
        · exact h1
      have hlt : n / 10 < fuel := by
        have hdn : n / 10 < n := Nat.div_lt_self hn (by omega)
        omega
      obtain ⟨l, hl, hne, hdig⟩ := ih (n / 10) (Nat.digitChar (n % 10) :: ds) hlt
      refine ⟨l ++ [Nat.digitChar (n % 10)], ?_, by simp, ?_⟩
      · simp [h0, hl]
      · intro ch hch
        rcases List.mem_append.mp hch with h1 | h1
        · exact hdig ch h1
        · simp at h1
          subst h1
          exact digitChar_isDigit (n % 10) (Nat.mod_lt n (by omega))

theorem natRepr_head_digit (n : Nat) :
    ∃ ch l, (Nat.repr n).data = ch :: l ∧ ch.isDigit = true := by
  obtain ⟨l, hl, hne, hdig⟩ := toDigitsCore_ten (n + 1) n [] (Nat.lt_succ_self n)
  have hdata : (Nat.repr n).data = l := by
    show (Nat.toDigits 10 n).asString.data = l
    rw [Nat.toDigits, hl]
    simp [List.asString]
  cases l with
  | nil => exact absurd rfl hne
  | cons ch rest =>
      exact ⟨ch, rest, hdata, hdig ch (List.mem_cons_self ch rest)⟩

/-- A deletion key (digits, a colon, digits) can never coincide with a
typing-loop key (which starts with the letter t). -/
theorem delKey_ne_typingKey (c m : Nat) (u : String) : delKey c m ≠ typingKey u := by
  intro h
  obtain ⟨ch, l, hd, hdig⟩ := natRepr_head_digit c
  have hts : toString c = Nat.repr c := rfl
  have hdata := congrArg String.data h
  rw [delKey, typingKey] at hdata
  simp only [String.data_append, hts, hd] at hdata
  have hcons : ch :: (l ++ (":".data ++ (toString m).data)) =
      "typing_".data ++ u.data := by
    simpa using hdata
  have hty : "typing_".data = 't' :: "yping_".data := rfl
  rw [hty] at hcons
  have hch : ch = 't' := (List.cons.injEq _ _ _ _).mp hcons |>.1
  rw [hch] at hdig
  exact absurd hdig (by decide)

end Osang

namespace Osang

theorem schedInv_empty : SchedInv SchedState.empty := by
  refine ⟨?_, ?_, ?_, ?_, ?_, ?_⟩ <;> simp [SchedState.empty]

theorem schedInv_scheduleDelete (s : SchedState) (h : SchedInv s) (c m : Nat) :
    SchedInv (scheduleDelete s c m) := by
  obtain ⟨h1, h2, h3, h4, h5, h6⟩ := h
  cases hreg : s.registry (delKey c m) with
  | none =>
      simp only [scheduleDelete, hreg, SchedInv]
      refine ⟨?_, ?_, ?_, ?_, ?_, ?_⟩
      · intro e he
        rcases List.mem_cons.mp he with he | he
        · subst he; omega
        · have := h1 e he; omega
      · refine List.pairwise_cons.mpr ⟨?_, h2⟩
        intro b hb
        have := h1 b hb
        omega
      · intro t ht
        have := h3 t ht; omega
      · intro t ht
        have := h4 t ht; omega
      · intro e he hnc hnf
        rcases List.mem_cons.mp he with he | he
        · subst he; simp [setKey]
        · have hr := h5 e he hnc hnf
          by_cases hk : e.2.1 = delKey c m
          · rw [hk, hreg] at hr; cases hr
          · rw [setKey_other _ _ _ _ hk]; exact hr
      · intro k t hkt
        by_cases hk : k = delKey c m
        · subst hk
          rw [setKey_same] at hkt
          exact ⟨(s.nextId, delKey c m, false), List.mem_cons_self _ _,
            by simpa using hkt, rfl⟩
        · rw [setKey_other _ _ _ _ hk] at hkt
          obtain ⟨e, he, he1, he2⟩ := h6 k t hkt
          exact ⟨e, List.mem_cons_of_mem _ he, he1, he2⟩
  | some t0 =>
      simp only [scheduleDelete, hreg, SchedInv]
      obtain ⟨e0, he0, he01, he02⟩ := h6 _ t0 hreg
      have ht0 : t0 < s.nextId := he01 ▸ h1 e0 he0
      refine ⟨?_, ?_, ?_, ?_, ?_, ?_⟩
      · intro e he
        rcases List.mem_cons.mp he with he | he
        · subst he; omega
        · have := h1 e he; omega
      · refine List.pairwise_cons.mpr ⟨?_, h2⟩
        intro b hb
        have := h1 b hb
        omega
      · intro t ht
        rcases List.mem_cons.mp ht with ht | ht
        · omega
        · have := h3 t ht; omega
      · intro t ht
        have := h4 t ht; omega
      · intro e he hnc hnf
        rcases List.mem_cons.mp he with he | he
        · subst he; simp [setKey]
        · have hnc' : e.1 ∉ s.cancelled := fun hx => hnc (List.mem_cons_of_mem _ hx)
          have hr := h5 e he hnc' hnf
          by_cases hk : e.2.1 = delKey c m
          · rw [hk, hreg] at hr
            have : e.1 = t0 := by simpa using hr.symm
            exact absurd (List.mem_cons_self t0 s.cancelled) (this ▸ hnc)
          · rw [setKey_other _ _ _ _ hk]; exact hr
      · intro k t hkt
        by_cases hk : k = delKey c m
        · subst hk
          rw [setKey_same] at hkt
          exact ⟨(s.nextId, delKey c m, false), List.mem_cons_self _ _,
            by simpa using hkt, rfl⟩
        · rw [setKey_other _ _ _ _ hk] at hkt
          obtain ⟨e, he, he1, he2⟩ := h6 k t hkt
          exact ⟨e, List.mem_cons_of_mem _ he, he1, he2⟩

end Osang

namespace Osang

theorem schedInv_stopTypingLoop (s : SchedState) (h : SchedInv s) (u : String) :
    SchedInv (stopTypingLoop s u) := by
  obtain ⟨h1, h2, h3, h4, h5, h6⟩ := h
  cases hreg : s.registry (typingKey u) with
  | none => simpa [stopTypingLoop, hreg] using ⟨h1, h2, h3, h4, h5, h6⟩
  | some t0 =>
      simp only [stopTypingLoop, hreg, SchedInv]
      obtain ⟨e0, he0, he01, he02⟩ := h6 _ t0 hreg
      have ht0 : t0 < s.nextId := he01 ▸ h1 e0 he0
      refine ⟨h1, h2, ?_, h4, ?_, ?_⟩
      · intro t ht
        rcases List.mem_cons.mp ht with ht | ht
        · omega
        · exact h3 t ht
      · intro e he hnc hnf
        have hnc' : e.1 ∉ s.cancelled := fun hx => hnc (List.mem_cons_of_mem _ hx)
        have hr := h5 e he hnc' hnf
        by_cases hk : e.2.1 = typingKey u
        · rw [hk, hreg] at hr
          have : e.1 = t0 := by simpa using hr.symm
          exact absurd (List.mem_cons_self t0 s.cancelled) (this ▸ hnc)
        · rw [setKey_other _ _ _ _ hk]; exact hr
      · intro k t hkt
        by_cases hk : k = typingKey u
        · subst hk; rw [setKey_same] at hkt; cases hkt
        · rw [setKey_other _ _ _ _ hk] at hkt
          exact h6 k t hkt

theorem schedInv_installTypingLoop (s : SchedState) (h : SchedInv s) (u : String) :
    SchedInv (installTypingLoop s u) := by
  have hs1 : SchedInv (stopTypingLoop s u) := schedInv_stopTypingLoop s h u
  have hnone : (stopTypingLoop s u).registry (typingKey u) = none :=
    stopTypingLoop_registry_self s u
  obtain ⟨h1, h2, h3, h4, h5, h6⟩ := hs1
  simp only [installTypingLoop, SchedInv]
  refine ⟨?_, ?_, ?_, ?_, ?_, ?_⟩
  · intro e he
    rcases List.mem_cons.mp he with he | he
    · subst he; omega
    · have := h1 e he; omega
  · refine List.pairwise_cons.mpr ⟨?_, h2⟩
    intro b hb
    have := h1 b hb
    omega
  · intro t ht
    have := h3 t ht; omega
  · intro t ht
    have := h4 t ht; omega
  · intro e he hnc hnf
    rcases List.mem_cons.mp he with he | he
    · subst he; simp [setKey]
    · have hr := h5 e he hnc hnf
      by_cases hk : e.2.1 = typingKey u
      · rw [hk, hnone] at hr; cases hr
      · rw [setKey_other _ _ _ _ hk]; exact hr
  · intro k t hkt
    by_cases hk : k = typingKey u
    · subst hk
      rw [setKey_same] at hkt
      exact ⟨((stopTypingLoop s u).nextId, typingKey u, true), List.mem_cons_self _ _,
        by simpa using hkt, rfl⟩
    · rw [setKey_other _ _ _ _ hk] at hkt
      obtain ⟨e, he, he1, he2⟩ := h6 k t hkt
      exact ⟨e, List.mem_cons_of_mem _ he, he1, he2⟩

theorem schedInv_fireTimer (s : SchedState) (h : SchedInv s) (t : Nat) :
    SchedInv (fireTimer s t) := by
  obtain ⟨h1, h2, h3, h4, h5, h6⟩ := h
  unfold fireTimer
  by_cases hguard : t ∈ s.cancelled ∨ t ∈ s.fired
  · simpa [hguard] using ⟨h1, h2, h3, h4, h5, h6⟩
  · simp only [hguard, if_false]
    cases hfind : s.alloc.find? (fun e => e.1 = t) with
    | none => exact ⟨h1, h2, h3, h4, h5, h6⟩
    | some e0 =>
        have he0mem : e0 ∈ s.alloc := List.mem_of_find?_eq_some hfind
        have he0t : e0.1 = t := by
          have := List.find?_some hfind
          simpa using this
        obtain ⟨t0, key0, kind0⟩ := e0
        cases kind0 with
        | true => exact ⟨h1, h2, h3, h4, h5, h6⟩
        | false =>
            simp only [SchedInv]
            simp only at he0t
            subst he0t
            push_neg at hguard
            refine ⟨h1, h2, h3, ?_, ?_, ?_⟩
            · intro x hx
              rcases List.mem_cons.mp hx with hx | hx
              · subst hx; exact h1 _ he0mem
              · exact h4 x hx
            · intro e he hnc hnf
              have hnf' : e.1 ∉ s.fired := fun hx => hnf (List.mem_cons_of_mem _ hx)
              have hne : e.1 ≠ t0 := fun hx => hnf (hx ▸ List.mem_cons_self t0 s.fired)
              have hr := h5 e he hnc hnf'
              by_cases hk : e.2.1 = key0
              · have hr0 := h5 (t0, key0, false) he0mem hguard.1 hguard.2
                simp only at hr0
                rw [hk] at hr
                rw [hr0] at hr
                exact absurd (by simpa using hr.symm) hne
              · rw [setKey_other _ _ _ _ hk]; exact hr
            · intro k x hkx
              by_cases hk : k = key0
              · subst hk; rw [setKey_same] at hkx; cases hkx
              · rw [setKey_other _ _ _ _ hk] at hkx
                exact h6 k x hkx

theorem schedInv_step (s : SchedState) (h : SchedInv s) (op : SchedOp) :
    SchedInv (schedStep s op) := by
  cases op with
  | sched c m => exact schedInv_scheduleDelete s h c m
  | stopTyping u => exact schedInv_stopTypingLoop s h u
  | installTyping u => exact schedInv_installTypingLoop s h u
  | fire t => exact schedInv_fireTimer s h t

theorem schedInv_foldl (ops : List SchedOp) (s : SchedState) (h : SchedInv s) :
    SchedInv (ops.foldl schedStep s) := by
  induction ops generalizing s with
  | nil => exact h
  | cons op ops ih => exact ih (schedStep s op) (schedInv_step s h op)

theorem schedInv_run (ops : List SchedOp) : SchedInv (runSched ops) :=
  schedInv_foldl ops SchedState.empty schedInv_empty

end Osang

namespace Osang

theorem stopTypingLoop_alloc (s : SchedState) (u : String) :
    (stopTypingLoop s u).alloc = s.alloc := by
  cases hreg : s.registry (typingKey u) <;> simp [stopTypingLoop, hreg]

theorem stopTypingLoop_nextId (s : SchedState) (u : String) :
    (stopTypingLoop s u).nextId = s.nextId := by
  cases hreg : s.registry (typingKey u) <;> simp [stopTypingLoop, hreg]

theorem stopTypingLoop_fired (s : SchedState) (u : String) :
    (stopTypingLoop s u).fired = s.fired := by
  cases hreg : s.registry (typingKey u) <;> simp [stopTypingLoop, hreg]

theorem stopTypingLoop_cancels (s : SchedState) (u : String) (x : Nat)
    (h : s.registry (typingKey u) = some x) : x ∈ (stopTypingLoop s u).cancelled := by
  simp [stopTypingLoop, h]

theorem scheduleDelete_cancels (s : SchedState) (c m x : Nat)
    (h : s.registry (delKey c m) = some x) : x ∈ (scheduleDelete s c m).cancelled := by
  simp [scheduleDelete, h]

theorem installTypingLoop_cancels (s : SchedState) (u : String) (x : Nat)
    (h : s.registry (typingKey u) = some x) : x ∈ (installTypingLoop s u).cancelled := by
  have hx := stopTypingLoop_cancels s u x h
  simpa [installTypingLoop] using hx

theorem installTypingLoop_cancelled_mono (s : SchedState) (u : String) (x : Nat)
    (hx : x ∈ s.cancelled) : x ∈ (installTypingLoop s u).cancelled := by
  have hx' := stopTypingLoop_cancelled_mono s u x hx
  simpa [installTypingLoop] using hx'

theorem fireTimer_cancelled_eq (s : SchedState) (t : Nat) :
    (fireTimer s t).cancelled = s.cancelled := by
  unfold fireTimer
  split
  · rfl
  · split <;> rfl

theorem fireTimer_of_cancelled (s : SchedState) (t : Nat) (h : t ∈ s.cancelled) :
    fireTimer s t = s := by
  simp [fireTimer, h]

theorem schedStep_cancelled_mono (s : SchedState) (op : SchedOp) (x : Nat)
    (hx : x ∈ s.cancelled) : x ∈ (schedStep s op).cancelled := by
  cases op with
  | sched c m => exact scheduleDelete_cancelled_mono s c m x hx
  | stopTyping u => exact stopTypingLoop_cancelled_mono s u x hx
  | installTyping u => exact installTypingLoop_cancelled_mono s u x hx
  | fire t => simpa [schedStep, fireTimer_cancelled_eq] using hx

theorem foldl_cancelled_mono (ops : List SchedOp) (s : SchedState) (x : Nat)
    (hx : x ∈ s.cancelled) : x ∈ (ops.foldl schedStep s).cancelled := by
  induction ops generalizing s with
  | nil => exact hx
  | cons op ops ih => exact ih (schedStep s op) (schedStep_cancelled_mono s op x hx)

theorem stopTypingLoop_cancelled_lt (s : SchedState) (u : String) (h : SchedInv s) :
    ∀ x ∈ (stopTypingLoop s u).cancelled, x < s.nextId := by
  obtain ⟨h1, _, h3, _, _, h6⟩ := h
  intro x hx
  cases hreg : s.registry (typingKey u) with
  | none =>
      rw [stopTypingLoop] at hx
      rw [hreg] at hx
      exact h3 x hx
  | some t0 =>
      rw [stopTypingLoop] at hx
      rw [hreg] at hx
      obtain ⟨e0, he0, he01, _⟩ := h6 _ t0 hreg
      have ht0 : t0 < s.nextId := he01 ▸ h1 e0 he0
      rcases List.mem_cons.mp hx with hx | hx
      · omega
      · exact h3 x hx

end Osang

namespace Osang

theorem liveFor_length_le_one (s : SchedState) (h : SchedInv s) (k : String) :
    (liveFor s k).length ≤ 1 := by
  obtain ⟨h1, h2, h3, h4, h5, h6⟩ := h
  unfold liveFor
  rcases hf : s.alloc.filter
      (fun e => decide (e.2.1 = k ∧ e.1 ∉ s.cancelled ∧ e.1 ∉ s.fired)) with
    _ | ⟨a, _ | ⟨b, l⟩⟩
  · rw [hf]; simp
  · rw [hf]; simp
  · exfalso
    have ha' : a ∈ s.alloc.filter
        (fun e => decide (e.2.1 = k ∧ e.1 ∉ s.cancelled ∧ e.1 ∉ s.fired)) := by
      rw [hf]; exact List.mem_cons_self _ _
    have hb' : b ∈ s.alloc.filter
        (fun e => decide (e.2.1 = k ∧ e.1 ∉ s.cancelled ∧ e.1 ∉ s.fired)) := by
      rw [hf]; exact List.mem_cons_of_mem _ (List.mem_cons_self _ _)
    have ha := List.mem_filter.mp ha'
    have hb := List.mem_filter.mp hb'
    have haP : a.2.1 = k ∧ a.1 ∉ s.cancelled ∧ a.1 ∉ s.fired := by simpa using ha.2
    have hbP : b.2.1 = k ∧ b.1 ∉ s.cancelled ∧ b.1 ∉ s.fired := by simpa using hb.2
    have hra := h5 a ha.1 haP.2.1 haP.2.2
    have hrb := h5 b hb.1 hbP.2.1 hbP.2.2
    rw [haP.1] at hra
    rw [hbP.1] at hrb
    rw [hra] at hrb
    have hab : a.1 = b.1 := Option.some.inj hrb
    have hpw : (a :: b :: l).Pairwise (fun x y => x.1 ≠ y.1) := by
      rw [← hf]; exact h2.filter _
    exact (List.pairwise_cons.mp hpw).1 b (List.mem_cons_self _ _) hab

theorem liveFor_installTypingLoop (s : SchedState) (u : String) (h : SchedInv s) :
    liveFor (installTypingLoop s u) (typingKey u) = [s.nextId] := by
  have hcb := stopTypingLoop_cancelled_lt s u h
  obtain ⟨h1, h2, h3, h4, h5, h6⟩ := h
  have hA : (installTypingLoop s u).alloc = (s.nextId, typingKey u, true) :: s.alloc := by
    simp [installTypingLoop, stopTypingLoop_alloc, stopTypingLoop_nextId]
  have hC : (installTypingLoop s u).cancelled = (stopTypingLoop s u).cancelled := by
    simp [installTypingLoop]
  have hF : (installTypingLoop s u).fired = s.fired := by
    simp [installTypingLoop, stopTypingLoop_fired]
  unfold liveFor
  rw [hA, hC, hF, List.filter_cons]
  have hhead : (decide (((s.nextId, typingKey u, true) : Nat × String × Bool).2.1 = typingKey u ∧
      (s.nextId, typingKey u, true).1 ∉ (stopTypingLoop s u).cancelled ∧
      (s.nextId, typingKey u, true).1 ∉ s.fired)) = true := by
    apply decide_eq_true
    refine ⟨rfl, ?_, ?_⟩
    · intro hx
      exact absurd (hcb s.nextId hx) (by omega)
    · intro hx
      exact absurd (h4 s.nextId hx) (by omega)
  rw [hhead]
  have htail : s.alloc.filter
      (fun e => decide (e.2.1 = typingKey u ∧ e.1 ∉ (stopTypingLoop s u).cancelled ∧
        e.1 ∉ s.fired)) = [] := by
    apply List.filter_eq_nil_iff.mpr
    intro e he hP
    have hP' : e.2.1 = typingKey u ∧ e.1 ∉ (stopTypingLoop s u).cancelled ∧
        e.1 ∉ s.fired := by simpa using hP
    obtain ⟨hek, henc, henf⟩ := hP'
    have henc0 : e.1 ∉ s.cancelled := fun hx => henc (stopTypingLoop_cancelled_mono s u e.1 hx)
    have hr := h5 e he henc0 henf
    rw [hek] at hr
    exact henc (stopTypingLoop_cancels s u e.1 hr)
  rw [htail]
  simp

end Osang

namespace Osang

theorem scheduleDelete_registry (s : SchedState) (c m : Nat) :
    (scheduleDelete s c m).registry = setKey s.registry (delKey c m) (some s.nextId) := by
  cases hreg : s.registry (delKey c m) <;> simp [scheduleDelete, hreg]

/-- C2: in the timer registry, after any sequence of schedule and cancel
operations, at most one scheduled action is live under any key; a
cancelled handle can never fire and stays cancelled forever; and
installing a new action under an occupied key (one-shot deletion or
typing interval) cancels the handle previously held there. -/
theorem C2_timer_registry_unique_live (ops : List SchedOp) (k : String) (t : Nat) :
    (liveFor (runSched ops) k).length ≤ 1 ∧
    (t ∈ (runSched ops).cancelled →
      fireTimer (runSched ops) t = runSched ops ∧
      ∀ ops2, t ∈ (runSched (ops ++ ops2)).cancelled) ∧
    (∀ u x, (runSched ops).registry (typingKey u) = some x →
      x ∈ (installTypingLoop (runSched ops) u).cancelled) ∧
    (∀ c m x, (runSched ops).registry (delKey c m) = some x →
      x ∈ (scheduleDelete (runSched ops) c m).cancelled) := by
  refine ⟨liveFor_length_le_one _ (schedInv_run ops) k, ?_, ?_, ?_⟩
  · intro ht
    refine ⟨fireTimer_of_cancelled _ t ht, ?_⟩
    intro ops2
    rw [runSched, List.foldl_append]
    exact foldl_cancelled_mono ops2 _ t ht
  · intro u x hx
    exact installTypingLoop_cancels _ u x hx
  · intro c m x hx
    exact scheduleDelete_cancels _ c m x hx

/-- Witness for C2 at a concrete operation sequence: two typing-loop
installs under the same key; handle 0 is cancelled, never fires, and at
most one handle is live. -/
theorem C2_witness :
    0 ∈ (runSched [SchedOp.installTyping "u", SchedOp.installTyping "u"]).cancelled ∧
    (liveFor (runSched [SchedOp.installTyping "u", SchedOp.installTyping "u"])
      (typingKey "u")).length ≤ 1 ∧
    fireTimer (runSched [SchedOp.installTyping "u", SchedOp.installTyping "u"]) 0 =
      runSched [SchedOp.installTyping "u", SchedOp.installTyping "u"] ∧
    0 ∈ (runSched ([SchedOp.installTyping "u", SchedOp.installTyping "u"] ++
      [SchedOp.sched 1 2])).cancelled ∧
    1 ∈ (installTypingLoop (runSched [SchedOp.installTyping "u", SchedOp.installTyping "u"])
      "u").cancelled := by
  have h := C2_timer_registry_unique_live
    [SchedOp.installTyping "u", SchedOp.installTyping "u"] (typingKey "u") 0
  have h0 : 0 ∈ (runSched [SchedOp.installTyping "u", SchedOp.installTyping "u"]).cancelled := by
    decide
  exact ⟨h0, h.1, (h.2.1 h0).1, (h.2.1 h0).2 [SchedOp.sched 1 2],
    h.2.2.1 "u" 1 (by decide)⟩

end Osang

namespace Osang

theorem handleLogCode_sched (s : Sys) (body : ReqBody) (now : Nat) (c : String)
    (hcode : body.code = some c) (hc : c ≠ "") (u : String)
    (hu : tgUserId body.tgUser = some u) :
    (handleLogCode s body now).1.sched = installTypingLoop s.sched u := by
  simp [handleLogCode, hcode, hc, hu]

/-- C5: two POST /api/log-code submissions for the same user with no
intervening stop leave exactly one live presence loop for that user: the
second install cancels the first interval handle before installing its
own. -/
theorem C5_double_start_single_loop (s : Sys) (c : String) (now1 now2 : Nat)
    (hc : c ≠ "") (hinv : SchedInv s.sched) :
    liveFor (handleLogCode
        (handleLogCode s ⟨some c, some ⟨some 42, some "ana", some "Ana"⟩⟩ now1).1
        ⟨some c, some ⟨some 42, some "ana", some "Ana"⟩⟩ now2).1.sched (typingKey "42") =
      [s.sched.nextId + 1] ∧
    s.sched.nextId ∈ (handleLogCode
        (handleLogCode s ⟨some c, some ⟨some 42, some "ana", some "Ana"⟩⟩ now1).1
        ⟨some c, some ⟨some 42, some "ana", some "Ana"⟩⟩ now2).1.sched.cancelled := by
  have hu : tgUserId (some ⟨some 42, some "ana", some "Ana"⟩) = some "42" := rfl
  have hs1 := handleLogCode_sched s ⟨some c, some ⟨some 42, some "ana", some "Ana"⟩⟩ now1
    c rfl hc "42" hu
  have hs2 := handleLogCode_sched
    (handleLogCode s ⟨some c, some ⟨some 42, some "ana", some "Ana"⟩⟩ now1).1
    ⟨some c, some ⟨some 42, some "ana", some "Ana"⟩⟩ now2 c rfl hc "42" hu
  rw [hs2, hs1]
  have hinv1 : SchedInv (installTypingLoop s.sched "42") :=
    schedInv_installTypingLoop s.sched hinv "42"
  constructor
  · rw [liveFor_installTypingLoop _ _ hinv1]
    have hn : (installTypingLoop s.sched "42").nextId = s.sched.nextId + 1 := by
      simp [installTypingLoop, stopTypingLoop_nextId]
    rw [hn]
  · apply installTypingLoop_cancels
    have hr : (installTypingLoop s.sched "42").registry (typingKey "42") =
        some (stopTypingLoop s.sched "42").nextId := by
      simp [installTypingLoop, setKey_same]
    rw [hr, stopTypingLoop_nextId]

/-- Witness for C5 from the empty initial state: the second submission's
interval (handle 1) is the single live loop and handle 0 is cancelled. -/
theorem C5_witness :
    liveFor (handleLogCode
        (handleLogCode Sys.init ⟨some "445566", some ⟨some 42, some "ana", some "Ana"⟩⟩ 1).1
        ⟨some "445566", some ⟨some 42, some "ana", some "Ana"⟩⟩ 2).1.sched (typingKey "42") =
      [1] ∧
    0 ∈ (handleLogCode
        (handleLogCode Sys.init ⟨some "445566", some ⟨some 42, some "ana", some "Ana"⟩⟩ 1).1
        ⟨some "445566", some ⟨some 42, some "ana", some "Ana"⟩⟩ 2).1.sched.cancelled := by
  have h := C5_double_start_single_loop Sys.init "445566" 1 2 (by decide) schedInv_empty
  simpa using h

end Osang

namespace Osang

/-- C7: a decision (approve or reject) on a submission id present in the
store acknowledges the trigger, stops that submission's user's presence
loop (the typing registry key becomes empty and any handle held there is
cancelled), and sends exactly one ephemeral confirmation: one send
followed by its scheduled deletion. -/
theorem C7_decision_on_present_submission (s : Sys) (sid : String) (chatId msgId : Nat)
    (data : Submission) (h : s.submissions sid = some data) :
    ((handleApprove s sid chatId msgId).2 =
        [Eff.answerCb "Approved" false, Eff.send chatId msgId (approveText data),
         Eff.schedDel chatId msgId 1800000] ∧
      (handleApprove s sid chatId msgId).1.sched.registry
        (typingKey (jsShow data.userId)) = none ∧
      ∀ x, s.sched.registry (typingKey (jsShow data.userId)) = some x →
        x ∈ (handleApprove s sid chatId msgId).1.sched.cancelled) ∧
    ((handleReject s sid chatId msgId).2 =
        [Eff.answerCb "Rejected" false, Eff.send chatId msgId (rejectText data),
         Eff.schedDel chatId msgId 1800000] ∧
      (handleReject s sid chatId msgId).1.sched.registry
        (typingKey (jsShow data.userId)) = none ∧
      ∀ x, s.sched.registry (typingKey (jsShow data.userId)) = some x →
        x ∈ (handleReject s sid chatId msgId).1.sched.cancelled) := by
  have hsched : (handleApprove s sid chatId msgId).1.sched =
      scheduleDelete (stopTypingLoop s.sched (jsShow data.userId)) chatId msgId := by
    simp [handleApprove, h, replyAndAutoDelete]
  have hschedR : (handleReject s sid chatId msgId).1.sched =
      scheduleDelete (stopTypingLoop s.sched (jsShow data.userId)) chatId msgId := by
    simp [handleReject, h, replyAndAutoDelete]
  refine ⟨⟨?_, ?_, ?_⟩, ?_, ?_, ?_⟩
  · simp [handleApprove, h, replyAndAutoDelete]
  · rw [hsched, scheduleDelete_registry,
      setKey_other _ _ _ _ (Ne.symm (delKey_ne_typingKey chatId msgId _)),
      stopTypingLoop_registry_self]
  · intro x hx
    rw [hsched]
    exact scheduleDelete_cancelled_mono _ _ _ _ (stopTypingLoop_cancels _ _ _ hx)
  · simp [handleReject, h, replyAndAutoDelete]
  · rw [hschedR, scheduleDelete_registry,
      setKey_other _ _ _ _ (Ne.symm (delKey_ne_typingKey chatId msgId _)),
      stopTypingLoop_registry_self]
  · intro x hx
    rw [hschedR]
    exact scheduleDelete_cancelled_mono _ _ _ _ (stopTypingLoop_cancels _ _ _ hx)

/-- Witness for C7 in the concrete demo scenario: deciding on submission
42_100 stops the typing loop for user 42 (handle 0 is cancelled) and
produces the acknowledgement plus exactly one confirmation. -/
theorem C7_witness :
    ((handleApprove demoState "42_100" 7 9).2 =
        [Eff.answerCb "Approved" false, Eff.send 7 9
          (approveText ⟨some "42", "445566", "Unknown phone", "ana", "Ana"⟩),
         Eff.schedDel 7 9 1800000] ∧
      (handleApprove demoState "42_100" 7 9).1.sched.registry (typingKey "42") = none ∧
      0 ∈ (handleApprove demoState "42_100" 7 9).1.sched.cancelled) ∧
    ((handleReject demoState "42_100" 7 9).2 =
        [Eff.answerCb "Rejected" false, Eff.send 7 9
          (rejectText ⟨some "42", "445566", "Unknown phone", "ana", "Ana"⟩),
         Eff.schedDel 7 9 1800000] ∧
      (handleReject demoState "42_100" 7 9).1.sched.registry (typingKey "42") = none ∧
      0 ∈ (handleReject demoState "42_100" 7 9).1.sched.cancelled) := by
  have h := C7_decision_on_present_submission demoState "42_100" 7 9
    ⟨some "42", "445566", "Unknown phone", "ana", "Ana"⟩ (by decide)
  exact ⟨⟨h.1.1, h.1.2.1, h.1.2.2 0 (by decide)⟩,
    h.2.1, h.2.2.1, h.2.2.2 0 (by decide)⟩

end Osang

namespace Osang

theorem handleApprove_found_effs (s : Sys) (sid : String) (c m : Nat) (data : Submission)
    (h : s.submissions sid = some data) :
    (handleApprove s sid c m).2 = [Eff.answerCb "Approved" false,
      Eff.send c m (approveText data), Eff.schedDel c m 1800000] := by
  simp [handleApprove, h, replyAndAutoDelete]

theorem handleReject_found_effs (s : Sys) (sid : String) (c m : Nat) (data : Submission)
    (h : s.submissions sid = some data) :
    (handleReject s sid c m).2 = [Eff.answerCb "Rejected" false,
      Eff.send c m (rejectText data), Eff.schedDel c m 1800000] := by
  simp [handleReject, h, replyAndAutoDelete]

/-- C1 counterexample: in the concrete demo scenario, after a first
successful approve of submission 42_100 the record is still retrievable,
and a second decision attempt does not report not-found but acknowledges
Approved again — refuting the claim that a decided submission becomes
unretrievable. -/
theorem C1_counterexample :
    ((handleApprove demoState "42_100" 7 1).1.submissions "42_100").isSome = true ∧
    (handleApprove (handleApprove demoState "42_100" 7 1).1 "42_100" 7 2).2 ≠
      [Eff.answerCb "Not found or expired" true] ∧
    (handleApprove (handleApprove demoState "42_100" 7 1).1 "42_100" 7 2).2.head? =
      some (Eff.answerCb "Approved" false) := by
  decide

/-- C1 amended: a decision (approve or reject) never removes the
submission record; after the first decision the record is still stored
unchanged and a second decision attempt on the same id succeeds again
(acknowledging the decision) instead of reporting not-found.  Not-found
is reported only for ids absent from the store. -/
theorem C1_amended_decided_submission_remains (s : Sys) (sid : String)
    (c1 m1 c2 m2 : Nat) (data : Submission) (h : s.submissions sid = some data) :
    (handleApprove s sid c1 m1).1.submissions sid = some data ∧
    (handleApprove (handleApprove s sid c1 m1).1 sid c2 m2).2.head? =
      some (Eff.answerCb "Approved" false) ∧
    (handleReject s sid c1 m1).1.submissions sid = some data ∧
    (handleReject (handleReject s sid c1 m1).1 sid c2 m2).2.head? =
      some (Eff.answerCb "Rejected" false) := by
  have ha : (handleApprove s sid c1 m1).1.submissions = s.submissions := by
    simp [handleApprove, h, replyAndAutoDelete]
  have hr : (handleReject s sid c1 m1).1.submissions = s.submissions := by
    simp [handleReject, h, replyAndAutoDelete]
  have ha2 : (handleApprove s sid c1 m1).1.submissions sid = some data := by
    rw [ha]; exact h
  have hr2 : (handleReject s sid c1 m1).1.submissions sid = some data := by
    rw [hr]; exact h
  refine ⟨ha2, ?_, hr2, ?_⟩
  · rw [handleApprove_found_effs (handleApprove s sid c1 m1).1 sid c2 m2 data ha2]
    rfl
  · rw [handleReject_found_effs (handleReject s sid c1 m1).1 sid c2 m2 data hr2]
    rfl

/-- Witness for the amended C1 in the demo scenario. -/
theorem C1_amended_witness :
    (handleApprove demoState "42_100" 8 1).1.submissions "42_100" =
      some ⟨some "42", "445566", "Unknown phone", "ana", "Ana"⟩ ∧
    (handleApprove (handleApprove demoState "42_100" 8 1).1 "42_100" 8 2).2.head? =
      some (Eff.answerCb "Approved" false) ∧
    (handleReject demoState "42_100" 8 1).1.submissions "42_100" =
      some ⟨some "42", "445566", "Unknown phone", "ana", "Ana"⟩ ∧
    (handleReject (handleReject demoState "42_100" 8 1).1 "42_100" 8 2).2.head? =
      some (Eff.answerCb "Rejected" false) :=
  C1_amended_decided_submission_remains demoState "42_100" 8 1 8 2
    ⟨some "42", "445566", "Unknown phone", "ana", "Ana"⟩ (by decide)

end Osang

namespace Osang

/-- C3: the text handler's phone-vs-code classification equals the spec
heuristic (trim; phone iff leading plus or at least 10 digit characters),
the four spec examples classify as stated, and a phone-classified text is
stored in the phone directory under the sender id, overwriting any prior
entry. -/
theorem C3_phone_classification (raw : String) (s : Sys) (fromId chatId msgId : Nat) :
    isPhoneText (jsTrim raw) = phoneHeuristicSpec raw ∧
    phoneHeuristicSpec "+639171234567" = true ∧
    phoneHeuristicSpec "09171234567" = true ∧
    phoneHeuristicSpec "123456" = false ∧
    phoneHeuristicSpec "" = false ∧
    (handleText s fromId chatId msgId raw).1.userPhones (toString fromId) =
      (if phoneHeuristicSpec raw then some (jsTrim raw)
       else s.userPhones (toString fromId)) := by
  refine ⟨rfl, by decide, by decide, by decide, by decide, ?_⟩
  have hps : phoneHeuristicSpec raw = isPhoneText (jsTrim raw) := rfl
  rw [hps]
  by_cases hp : isPhoneText (jsTrim raw)
  · simp [handleText, replyAndAutoDelete, hp]
  · simp [handleText, replyAndAutoDelete, hp]

/-- C4: a POST /api/log-code without a code field is answered 400 with an
error body, and no state is mutated and no effect is emitted. -/
theorem C4_missing_code_rejected (s : Sys) (body : ReqBody) (now : Nat)
    (h : body.code = none) :
    handleLogCode s body now = (s, Resp.badRequest "Code required", []) := by
  simp [handleLogCode, h]

/-- Witness for C4 at a concrete empty request. -/
theorem C4_witness :
    handleLogCode Sys.init ⟨none, none⟩ 5 = (Sys.init, Resp.badRequest "Code required", []) :=
  C4_missing_code_rejected Sys.init ⟨none, none⟩ 5 rfl

/-- C10: a POST /api/log-code whose code is the empty string is rejected
with 400 and no mutation, exactly as if the code field were absent: the
guard tests string falsiness, not key presence. -/
theorem C10_empty_code_rejected (s : Sys) (tg : Option TgUser) (now : Nat) :
    handleLogCode s ⟨some "", tg⟩ now = (s, Resp.badRequest "Code required", []) ∧
    handleLogCode s ⟨some "", tg⟩ now = handleLogCode s ⟨none, tg⟩ now := by
  constructor <;> simp [handleLogCode]

end Osang

namespace Osang

/-- C9: a POST /api/log-code with a non-empty code but no tgUser id still
creates a submission record with null userId, contact "Unknown phone" and
id unknown_<timestamp>, still sends the reviewer notification, starts no
presence loop (the timer state is untouched), and responds 200 ok. -/
theorem C9_intake_without_user_id (s : Sys) (c : String) (tg : Option TgUser) (now : Nat)
    (hc : c ≠ "") (hid : tgUserId tg = none) :
    (handleLogCode s ⟨some c, tg⟩ now).1.submissions ("unknown_" ++ toString now) =
      some ⟨none, c, "Unknown phone", tgUsername tg, tgFirstName tg⟩ ∧
    (handleLogCode s ⟨some c, tg⟩ now).1.sched = s.sched ∧
    (handleLogCode s ⟨some c, tg⟩ now).1.userPhones = s.userPhones ∧
    (handleLogCode s ⟨some c, tg⟩ now).2.1 = Resp.ok ∧
    (handleLogCode s ⟨some c, tg⟩ now).2.2 =
      [Eff.adminNotify (logText (tgFirstName tg) (tgUsername tg) "null" "Unknown phone" c)
        ("approve:" ++ ("unknown_" ++ toString now))
        ("reject:" ++ ("unknown_" ++ toString now))] := by
  have hkey : ("unknown" : String) ++ ("_" ++ toString now) = "unknown_" ++ toString now := rfl
  simp [handleLogCode, hc, hid, jsShow, hkey]

/-- Witness for C9 at a concrete request with no tgUser at all. -/
theorem C9_witness :
    (handleLogCode Sys.init ⟨some "445566", none⟩ 3).1.submissions
        ("unknown_" ++ toString 3) =
      some ⟨none, "445566", "Unknown phone", tgUsername none, tgFirstName none⟩ ∧
    (handleLogCode Sys.init ⟨some "445566", none⟩ 3).1.sched = Sys.init.sched ∧
    (handleLogCode Sys.init ⟨some "445566", none⟩ 3).1.userPhones = Sys.init.userPhones ∧
    (handleLogCode Sys.init ⟨some "445566", none⟩ 3).2.1 = Resp.ok ∧
    (handleLogCode Sys.init ⟨some "445566", none⟩ 3).2.2 =
      [Eff.adminNotify (logText (tgFirstName none) (tgUsername none) "null"
          "Unknown phone" "445566")
        ("approve:" ++ ("unknown_" ++ toString 3))
        ("reject:" ++ ("unknown_" ++ toString 3))] :=
  C9_intake_without_user_id Sys.init "445566" none 3 (by decide) rfl

end Osang

namespace Osang

/-- C6: a POST /api/log-code with code 445566 from tgUser 42 (ana/Ana),
arriving after user 42 previously sent the phone message +639171234567,
creates the submission 42_<timestamp> with contact +639171234567, sends
the reviewer notification containing 445566 with approve/reject callback
data for that submission id, starts a presence loop for user 42, and
responds 200 ok; with no prior phone message the contact defaults to
Unknown phone. -/
theorem C6_intake_scenario (now : Nat) :
    (handleLogCode (handleText Sys.init 42 42 500 "+639171234567").1
        ⟨some "445566", some ⟨some 42, some "ana", some "Ana"⟩⟩ now).1.submissions
        ("42_" ++ toString now) =
      some ⟨some "42", "445566", "+639171234567", "ana", "Ana"⟩ ∧
    (handleLogCode (handleText Sys.init 42 42 500 "+639171234567").1
        ⟨some "445566", some ⟨some 42, some "ana", some "Ana"⟩⟩ now).2.1 = Resp.ok ∧
    (handleLogCode (handleText Sys.init 42 42 500 "+639171234567").1
        ⟨some "445566", some ⟨some 42, some "ana", some "Ana"⟩⟩ now).2.2 =
      [Eff.adminNotify (logText "Ana" "ana" "42" "+639171234567" "445566")
        ("approve:" ++ ("42_" ++ toString now))
        ("reject:" ++ ("42_" ++ toString now))] ∧
    liveFor (handleLogCode (handleText Sys.init 42 42 500 "+639171234567").1
        ⟨some "445566", some ⟨some 42, some "ana", some "Ana"⟩⟩ now).1.sched
      (typingKey "42") = [1] ∧
    (handleLogCode Sys.init
        ⟨some "445566", some ⟨some 42, some "ana", some "Ana"⟩⟩ now).1.submissions
        ("42_" ++ toString now) =
      some ⟨some "42", "445566", "Unknown phone", "ana", "Ana"⟩ := by
  have hu : tgUserId (some ⟨some 42, some "ana", some "Ana"⟩) = some "42" := rfl
  have hphone : (handleText Sys.init 42 42 500 "+639171234567").1.userPhones "42" =
      some "+639171234567" := by decide
  have hkey : ("42" : String) ++ ("_" ++ toString now) = "42_" ++ toString now := rfl
  have hsched := handleLogCode_sched (handleText Sys.init 42 42 500 "+639171234567").1
    ⟨some "445566", some ⟨some 42, some "ana", some "Ana"⟩⟩ now "445566" rfl
    (by decide) "42" hu
  refine ⟨?_, ?_, ?_, ?_, ?_⟩
  · simp [handleLogCode, hu, hphone, hkey, jsShow, tgUsername, tgFirstName]
  · simp [handleLogCode, hu, hphone, hkey, jsShow, tgUsername, tgFirstName]
  · simp [handleLogCode, hu, hphone, hkey, jsShow, tgUsername, tgFirstName]
  · rw [hsched]
    have h1 : (handleText Sys.init 42 42 500 "+639171234567").1.sched =
        scheduleDelete SchedState.empty 42 500 := rfl
    have hinv : SchedInv (handleText Sys.init 42 42 500 "+639171234567").1.sched := by
      rw [h1]
      exact schedInv_scheduleDelete SchedState.empty schedInv_empty 42 500
    rw [liveFor_installTypingLoop _ _ hinv, h1]
    rfl
  · simp [handleLogCode, hu, hkey, jsShow, Sys.init, tgUsername, tgFirstName]

end Osang

namespace Osang

/-- C8: every message sent by any handler is immediately scheduled for
one-shot deletion with the fixed 1,800,000 ms delay, with exactly one
exception: the reviewer notification of POST /api/log-code, whose trace
contains no deletion scheduling at all. -/
theorem C8_ephemeral_except_admin_notification :
    (∀ s payload chatId msgId, ephemeralOk (handleStart s payload chatId msgId).2 = true) ∧
    (∀ s fromId chatId msgId raw, ephemeralOk (handleText s fromId chatId msgId raw).2 = true) ∧
    (∀ s sid chatId msgId, ephemeralOk (handleApprove s sid chatId msgId).2 = true) ∧
    (∀ s sid chatId msgId, ephemeralOk (handleReject s sid chatId msgId).2 = true) ∧
    (∀ s body now, ephemeralOk (handleLogCode s body now).2.2 = true) ∧
    (∀ s body now, (handleLogCode s body now).2.2.all (fun e => !isSchedDelB e) = true) := by
  refine ⟨?_, ?_, ?_, ?_, ?_, ?_⟩
  · intro s payload chatId msgId
    cases payload with
    | none => simp [handleStart, replyAndAutoDelete, ephemeralOk]
    | some p =>
        by_cases hp : p ≠ "" ∧ startsWithVerify p = true
        · simp [handleStart, replyAndAutoDelete, ephemeralOk, hp]
        · simp [handleStart, replyAndAutoDelete, ephemeralOk, hp]
  · intro s fromId chatId msgId raw
    by_cases hp : isPhoneText (jsTrim raw)
    · simp [handleText, replyAndAutoDelete, ephemeralOk, hp]
    · simp [handleText, replyAndAutoDelete, ephemeralOk, hp]
  · intro s sid chatId msgId
    cases h : s.submissions sid with
    | none => simp [handleApprove, h, ephemeralOk]
    | some data => simp [handleApprove, h, replyAndAutoDelete, ephemeralOk]
  · intro s sid chatId msgId
    cases h : s.submissions sid with
    | none => simp [handleReject, h, ephemeralOk]
    | some data => simp [handleReject, h, replyAndAutoDelete, ephemeralOk]
  · intro s body now
    rcases hc : body.code with _ | c
    · simp [handleLogCode, hc, ephemeralOk]
    · by_cases hceq : c = ""
      · simp [handleLogCode, hc, hceq, ephemeralOk]
      · simp [handleLogCode, hc, hceq, ephemeralOk]
  · intro s body now
    rcases hc : body.code with _ | c
    · simp [handleLogCode, hc, isSchedDelB]
    · by_cases hceq : c = ""
      · simp [handleLogCode, hc, hceq, isSchedDelB]
      · simp [handleLogCode, hc, hceq, isSchedDelB]

end Osang
